import Mathlib

/-!
Verification of the shape/scene engine of the canvas drawing application.

The embedding follows src/src/components/Canvas.tsx together with its
mobile variant (src/unnamed/part_000, which extends the same component with
an isMobile flag, a touch double-tap shortcut, and a tolerance that is
applied uniformly in the hit test).  JavaScript floating-point numbers are
idealised as real numbers; React state updates processed per event are
modelled as a pure step function on a state record.
-/

namespace CanvasApp

/-- A 2D point, used for pen paths and drag offsets. -/
structure Pt where
  x : ℝ
  y : ℝ

/-- ShapeType from src/src/types/Shapes.ts. -/
inductive ShapeType where
  | rectangle
  | circle
  | line
  | select
  | arrow
  | pen
  | text
deriving DecidableEq

/-- The Shape interface from src/src/types/Shapes.ts: an all-optional record
over the common fields id, type and anchor (x, y). -/
structure Shape where
  id : String
  type : ShapeType
  x : ℝ
  y : ℝ
  width : Option ℝ := none
  height : Option ℝ := none
  radius : Option ℝ := none
  x2 : Option ℝ := none
  y2 : Option ℝ := none
  path : Option (List Pt) := none

instance : Inhabited Shape := ⟨{ id := "", type := ShapeType.select, x := 0, y := 0 }⟩

/-- A scene is the ordered list of committed shapes (insertion order = z-order). -/
abbrev Scene := List Shape

/-- The React state of the Canvas component (both variants; the mobile-only
fields isMobile and lastTouchTime come from the unnamed variant). -/
structure CanvasState where
  shapes : Scene := []
  isDrawing : Bool := false
  startX : ℝ := 0
  startY : ℝ := 0
  currentShape : Option Shape := none
  selectedShapeId : Option String := none
  offset : Pt := ⟨0, 0⟩
  isShiftPressed : Bool := false
  penPath : List Pt := []
  history : List Scene := [[]]
  historyIndex : Nat := 0
  isMobile : Bool := false
  lastTouchTime : ℤ := 0

/-- Initial component state: useState initialisers of Canvas.tsx. -/
def init : CanvasState := {}

/-- saveToHistory: truncate the redo tail, append a copy of the new scene and
move the cursor to the new end (Canvas.tsx lines 25-30). -/
def saveToHistory (newShapes : Scene) (s : CanvasState) : CanvasState :=
  let newHistory := s.history.take (s.historyIndex + 1) ++ [newShapes]
  { s with history := newHistory, historyIndex := newHistory.length - 1 }

/-- undo: if the cursor is positive, step it back, restore that snapshot into
the live scene and clear the selection (Canvas.tsx lines 33-40). -/
def undo (s : CanvasState) : CanvasState :=
  if 0 < s.historyIndex then
    let newIndex := s.historyIndex - 1
    { s with historyIndex := newIndex,
             shapes := s.history.getD newIndex [],
             selectedShapeId := none }
  else s

/-- redo: if the cursor is before the last snapshot, step it forward, restore
that snapshot and clear the selection (Canvas.tsx lines 43-50). -/
def redo (s : CanvasState) : CanvasState :=
  if s.historyIndex < s.history.length - 1 then
    let newIndex := s.historyIndex + 1
    { s with historyIndex := newIndex,
             shapes := s.history.getD newIndex [],
             selectedShapeId := none }
  else s

/-- canUndo (Canvas.tsx line 53). -/
def canUndo (s : CanvasState) : Bool := decide (0 < s.historyIndex)

/-- canRedo (Canvas.tsx line 54). -/
def canRedo (s : CanvasState) : Bool := decide (s.historyIndex < s.history.length - 1)

/-- Abstract history operation: one call to saveToHistory, undo or redo. -/
inductive HistOp where
  | commit (scene : Scene)
  | histUndo
  | histRedo

/-- Apply one history operation to the component state. -/
def applyHistOp (s : CanvasState) : HistOp → CanvasState
  | HistOp.commit sc => saveToHistory sc s
  | HistOp.histUndo => undo s
  | HistOp.histRedo => redo s

/-- Run a sequence of history operations from the initial state. -/
def runHistOps (ops : List HistOp) : CanvasState :=
  ops.foldl applyHistOp init

/-- The history invariant of the spec: the cursor is a valid index and the
first snapshot is the empty scene. -/
def histInv (s : CanvasState) : Prop :=
  s.historyIndex < s.history.length ∧ s.history.head? = some ([] : Scene)

/-- Generic preservation of a predicate along List.foldl. -/
theorem foldl_pres {α β : Type} (P : β → Prop) (Q : α → Prop) (f : β → α → β)
    (hstep : ∀ b a, P b → Q a → P (f b a)) :
    ∀ (l : List α) (b : β), (∀ a, a ∈ l → Q a) → P b → P (l.foldl f b) := by
  intro l
  induction l with
  | nil => intro b _ hb; exact hb
  | cons a t ih =>
      intro b hl hb
      exact ih (f b a) (fun a2 ha2 => hl a2 (List.mem_cons_of_mem _ ha2))
        (hstep b a hb (hl a (List.mem_cons_self _ _)))

theorem histInv_save (sc : Scene) (s : CanvasState) (h : histInv s) :
    histInv (saveToHistory sc s) := by
  obtain ⟨h1, h2⟩ := h
  have hne : s.history ≠ [] := by
    intro hnil
    rw [hnil] at h2
    simp at h2
  obtain ⟨a, t, hcons⟩ := List.exists_cons_of_ne_nil hne
  constructor
  · simp [saveToHistory]
  · simp only [saveToHistory]
    rw [hcons] at h2 ⊢
    simpa [List.take_succ_cons] using h2

theorem histInv_undo (s : CanvasState) (h : histInv s) : histInv (undo s) := by
  obtain ⟨h1, h2⟩ := h
  unfold undo
  split
  · exact ⟨by simpa using Nat.lt_of_le_of_lt (Nat.sub_le _ _) h1, h2⟩
  · exact ⟨h1, h2⟩

theorem histInv_redo (s : CanvasState) (h : histInv s) : histInv (redo s) := by
  obtain ⟨h1, h2⟩ := h
  unfold redo
  split
  · next hlt => exact ⟨by simp only; omega, h2⟩
  · exact ⟨h1, h2⟩

/-- Claim C1: for every sequence of commit (saveToHistory), undo, and redo
calls starting from the initial state history = [[]], index = 0, the history
invariant holds after each call: 0 ≤ index < length(history), and history[0]
is the empty scene. -/
theorem c1_history_invariant (ops : List HistOp) :
    0 ≤ (runHistOps ops).historyIndex
    ∧ (runHistOps ops).historyIndex < (runHistOps ops).history.length
    ∧ (runHistOps ops).history.head? = some ([] : Scene) := by
  have hinit : histInv init := by
    constructor
    · show (0 : Nat) < 1
      exact Nat.one_pos
    · rfl
  have h := foldl_pres histInv (fun _ => True) applyHistOp
    (fun s op hs _ => by
      cases op with
      | commit sc => exact histInv_save sc s hs
      | histUndo => exact histInv_undo s hs
      | histRedo => exact histInv_redo s hs)
    ops init (fun _ _ => trivial) hinit
  exact ⟨Nat.zero_le _, h.1, h.2⟩

/-- Claim C2: for every history state whose cursor is not at a boundary
(0 < index), performing undo() and then redo() restores exactly the scene
(shapes list) and cursor that existed before the undo().  The hypothesis
h3 is the spec invariant that history[index] equals the committed scene
currently shown. -/
theorem c2_undo_redo_inverse (s : CanvasState)
    (h1 : 0 < s.historyIndex) (h2 : s.historyIndex < s.history.length)
    (h3 : s.history.getD s.historyIndex [] = s.shapes) :
    (redo (undo s)).shapes = s.shapes
    ∧ (redo (undo s)).historyIndex = s.historyIndex := by
  unfold undo
  rw [if_pos h1]
  unfold redo
  simp only
  have hguard : s.historyIndex - 1 < s.history.length - 1 := by omega
  rw [if_pos hguard]
  simp only
  have hidx : s.historyIndex - 1 + 1 = s.historyIndex := by omega
  rw [hidx]
  exact ⟨h3, rfl⟩

/-- Witness state for claim C2: two snapshots, cursor on the second. -/
def c2state : CanvasState := { shapes := [], history := [[], []], historyIndex := 1 }

/-- Witness for claim C2 at the concrete state c2state. -/
theorem c2_witness :
    0 < c2state.historyIndex
    ∧ c2state.historyIndex < c2state.history.length
    ∧ c2state.history.getD c2state.historyIndex [] = c2state.shapes
    ∧ (redo (undo c2state)).shapes = c2state.shapes
    ∧ (redo (undo c2state)).historyIndex = c2state.historyIndex := by
  have h := c2_undo_redo_inverse c2state Nat.one_pos (by decide) rfl
  exact ⟨Nat.one_pos, by decide, rfl, h.1, h.2⟩

/-- Claim C3: whenever canUndo() holds, after undo() followed by commit(S) for
any scene S, canRedo() is false: commit truncates all entries beyond the
cursor, appends S, and sets the cursor to the new last index. -/
theorem c3_commit_truncation (s : CanvasState) (sc : Scene) (h : canUndo s = true) :
    canRedo (saveToHistory sc (undo s)) = false
    ∧ (saveToHistory sc (undo s)).history
        = (undo s).history.take ((undo s).historyIndex + 1) ++ [sc]
    ∧ (saveToHistory sc (undo s)).historyIndex
        = (saveToHistory sc (undo s)).history.length - 1 := by
  refine ⟨?_, rfl, rfl⟩
  simp only [canRedo, saveToHistory, decide_eq_false_iff_not]
  simp only [List.length_append, List.length_take, List.length_singleton]
  omega

/-- Witness state for claim C3: canUndo holds since the cursor is 1. -/
def c3state : CanvasState := { shapes := [], history := [[], []], historyIndex := 1 }

/-- Witness for claim C3 at the concrete state c3state. -/
theorem c3_witness :
    canUndo c3state = true
    ∧ canRedo (saveToHistory [] (undo c3state)) = false := by
  have h := c3_commit_truncation c3state [] (by decide)
  exact ⟨by decide, h.1⟩

/-! ## Geometry module -/

/-- pointToLineDistance (identical in both Canvas.tsx variants): distance from
(x, y) to the segment (x1, y1)-(x2, y2); the division dot/len_sq is guarded by
len_sq not being zero, the degenerate case forcing param = -1 and hence the
first endpoint. -/
noncomputable def pointToLineDistance (x y x1 y1 x2 y2 : ℝ) : ℝ :=
  let A := x - x1
  let B := y - y1
  let C := x2 - x1
  let D := y2 - y1
  let dot := A * C + B * D
  let len_sq := C * C + D * D
  let param := if len_sq ≠ 0 then dot / len_sq else -1
  let xx := if param < 0 then x1 else if param > 1 then x2 else x1 + param * C
  let yy := if param < 0 then y1 else if param > 1 then y2 else y1 + param * D
  Real.sqrt ((x - xx) * (x - xx) + (y - yy) * (y - yy))

/-- Euclidean distance between two points, used to state geometry claims. -/
noncomputable def distPts (px py qx qy : ℝ) : ℝ :=
  Real.sqrt ((px - qx) * (px - qx) + (py - qy) * (py - qy))

/-- The raw projection parameter of (x, y) on the line through the segment. -/
noncomputable def projParam (x y x1 y1 x2 y2 : ℝ) : ℝ :=
  ((x - x1) * (x2 - x1) + (y - y1) * (y2 - y1))
    / ((x2 - x1) * (x2 - x1) + (y2 - y1) * (y2 - y1))

/-- Clamp a parameter into the unit interval. -/
noncomputable def clamp01 (t : ℝ) : ℝ := max 0 (min 1 t)

/-- The point of the segment at parameter t. -/
noncomputable def segPoint (x1 y1 x2 y2 t : ℝ) : Pt :=
  ⟨x1 + t * (x2 - x1), y1 + t * (y2 - y1)⟩

/-- isInsideShape, following the tolerance-parameterised variant
(src/unnamed/part_000 lines 350-392); the component calls it with
tolerance = 15 on mobile and 8 on desktop. -/
noncomputable def isInsideShape (x y : ℝ) (shape : Shape) (tolerance : ℝ) : Bool :=
  match shape.type with
  | ShapeType.rectangle =>
      let width := shape.width.getD 0
      let height := shape.height.getD 0
      let minX := if width < 0 then shape.x + width else shape.x
      let maxX := if width < 0 then shape.x else shape.x + width
      let minY := if height < 0 then shape.y + height else shape.y
      let maxY := if height < 0 then shape.y else shape.y + height
      decide (minX - tolerance ≤ x ∧ x ≤ maxX + tolerance ∧
              minY - tolerance ≤ y ∧ y ≤ maxY + tolerance)
  | ShapeType.circle =>
      let dx := x - shape.x
      let dy := y - shape.y
      decide (Real.sqrt (dx * dx + dy * dy) ≤ shape.radius.getD 0 + tolerance)
  | ShapeType.line =>
      decide (pointToLineDistance x y shape.x shape.y
        (shape.x2.getD 0) (shape.y2.getD 0) < tolerance)
  | ShapeType.arrow =>
      decide (pointToLineDistance x y shape.x shape.y
        (shape.x2.getD 0) (shape.y2.getD 0) < tolerance)
  | ShapeType.pen =>
      match shape.path with
      | none => false
      | some path =>
          (path.zip path.tail).any fun pq =>
            decide (pointToLineDistance x y pq.1.x pq.1.y pq.2.x pq.2.y < tolerance)
  | _ => false

theorem if_neg_min (a w : ℝ) : (if w < 0 then a + w else a) = min a (a + w) := by
  rcases lt_or_le w 0 with hw | hw
  · rw [if_pos hw, min_eq_right (by linarith)]
  · rw [if_neg (not_lt.mpr hw), min_eq_left (by linarith)]

theorem if_neg_max (a w : ℝ) : (if w < 0 then a else a + w) = max a (a + w) := by
  rcases lt_or_le w 0 with hw | hw
  · rw [if_pos hw, max_eq_left (by linarith)]
  · rw [if_neg (not_lt.mpr hw), max_eq_right (by linarith)]

/-- Claim C6: for every rectangle shape (any sign of width and height) and
every point, the hit test succeeds if and only if the point lies within the
sign-normalized bounding box expanded by the tolerance on all four sides, with
inclusive bounds. -/
theorem c6_rectangle_hit (shape : Shape) (x y tolerance : ℝ)
    (h : shape.type = ShapeType.rectangle) :
    isInsideShape x y shape tolerance = true ↔
      (min shape.x (shape.x + shape.width.getD 0) - tolerance ≤ x
        ∧ x ≤ max shape.x (shape.x + shape.width.getD 0) + tolerance
        ∧ min shape.y (shape.y + shape.height.getD 0) - tolerance ≤ y
        ∧ y ≤ max shape.y (shape.y + shape.height.getD 0) + tolerance) := by
  obtain ⟨sid, sty, sx, sy, sw, sht, sr, sa2, sb2, sp⟩ := shape
  have h' : sty = ShapeType.rectangle := h
  subst h'
  simp only [isInsideShape, decide_eq_true_eq]
  rw [if_neg_min, if_neg_max, if_neg_min, if_neg_max]

/-- Witness shape for claim C6: a rectangle with negative width. -/
def c6shape : Shape :=
  { id := "r", type := ShapeType.rectangle, x := 0, y := 0,
    width := some (-4), height := some 3 }

/-- Witness for claim C6: the point (8, 11) lies exactly on the expanded
boundary of c6shape at tolerance 8 and is contained. -/
theorem c6_witness :
    c6shape.type = ShapeType.rectangle ∧ isInsideShape 8 11 c6shape 8 = true := by
  refine ⟨rfl, (c6_rectangle_hit c6shape 8 11 8 rfl).mpr ?_⟩
  simp only [c6shape]
  norm_num

/-- Claim C7: for every circle shape and every point, the hit test succeeds if
and only if the Euclidean distance from the point to the anchor is at most
radius + tolerance (stated squared); in particular the center is contained. -/
theorem c7_circle_hit (shape : Shape) (x y tolerance : ℝ)
    (h : shape.type = ShapeType.circle)
    (hr : 0 ≤ shape.radius.getD 0) (ht : 0 ≤ tolerance) :
    (isInsideShape x y shape tolerance = true ↔
      (x - shape.x) * (x - shape.x) + (y - shape.y) * (y - shape.y)
        ≤ (shape.radius.getD 0 + tolerance) ^ 2)
    ∧ isInsideShape shape.x shape.y shape tolerance = true := by
  obtain ⟨sid, sty, sx, sy, sw, sht, sr, sa2, sb2, sp⟩ := shape
  have h' : sty = ShapeType.circle := h
  subst h'
  simp only [isInsideShape, decide_eq_true_eq]
  constructor
  · exact Real.sqrt_le_left (add_nonneg hr ht)
  · simp only [sub_self, mul_zero, zero_mul, add_zero, Real.sqrt_zero]
    exact add_nonneg hr ht


/-- Witness shape for claim C7: a circle of radius 5 at the origin. -/
def c7shape : Shape :=
  { id := "c", type := ShapeType.circle, x := 0, y := 0, radius := some 5 }

/-- Witness for claim C7: the point (13, 0) at distance radius + tolerance is
contained, and so is the center. -/
theorem c7_witness :
    c7shape.type = ShapeType.circle ∧ 0 ≤ c7shape.radius.getD 0 ∧ (0 : ℝ) ≤ 8
    ∧ isInsideShape 13 0 c7shape 8 = true
    ∧ isInsideShape c7shape.x c7shape.y c7shape 8 = true := by
  have h := c7_circle_hit c7shape 13 0 8 rfl (by norm_num [c7shape]) (by norm_num)
  refine ⟨rfl, by norm_num [c7shape], by norm_num, h.1.mpr ?_, h.2⟩
  simp only [c7shape]
  norm_num

theorem sqDist_min_neg (A B C0 D0 u : ℝ) (hu0 : 0 ≤ u) (hdot : A * C0 + B * D0 ≤ 0) :
    A * A + B * B ≤ (A - u * C0) * (A - u * C0) + (B - u * D0) * (B - u * D0) := by
  have key : (A - u * C0) * (A - u * C0) + (B - u * D0) * (B - u * D0)
      - (A * A + B * B)
      = u * u * (C0 * C0 + D0 * D0) - 2 * (u * (A * C0 + B * D0)) := by ring
  have t1 : 0 ≤ u * u * (C0 * C0 + D0 * D0) :=
    mul_nonneg (mul_self_nonneg u) (add_nonneg (mul_self_nonneg C0) (mul_self_nonneg D0))
  have t2 : 0 ≤ u * -(A * C0 + B * D0) :=
    mul_nonneg hu0 (neg_nonneg.mpr hdot)
  nlinarith [key, t1, t2]

theorem sqDist_min_pos (A B C0 D0 u : ℝ) (hu1 : u ≤ 1)
    (hdot : C0 * C0 + D0 * D0 ≤ A * C0 + B * D0) :
    (A - C0) * (A - C0) + (B - D0) * (B - D0)
      ≤ (A - u * C0) * (A - u * C0) + (B - u * D0) * (B - u * D0) := by
  have key : (A - u * C0) * (A - u * C0) + (B - u * D0) * (B - u * D0)
      - ((A - C0) * (A - C0) + (B - D0) * (B - D0))
      = 2 * ((1 - u) * ((A * C0 + B * D0) - (C0 * C0 + D0 * D0)))
        + (C0 * C0 + D0 * D0) * ((1 - u) * (1 - u)) := by ring
  have t1 : 0 ≤ (1 - u) * ((A * C0 + B * D0) - (C0 * C0 + D0 * D0)) :=
    mul_nonneg (by linarith) (by linarith)
  have t2 : 0 ≤ (C0 * C0 + D0 * D0) * ((1 - u) * (1 - u)) :=
    mul_nonneg (add_nonneg (mul_self_nonneg C0) (mul_self_nonneg D0)) (mul_self_nonneg _)
  nlinarith [key, t1, t2]

theorem sqDist_min_mid (A B C0 D0 u t : ℝ)
    (ht : t * (C0 * C0 + D0 * D0) = A * C0 + B * D0) :
    (A - t * C0) * (A - t * C0) + (B - t * D0) * (B - t * D0)
      ≤ (A - u * C0) * (A - u * C0) + (B - u * D0) * (B - u * D0) := by
  have key : (A - u * C0) * (A - u * C0) + (B - u * D0) * (B - u * D0)
      - ((A - t * C0) * (A - t * C0) + (B - t * D0) * (B - t * D0))
      = (C0 * C0 + D0 * D0) * ((u - t) * (u - t)) := by
    linear_combination (2 * (u - t)) * ht
  have t1 : 0 ≤ (C0 * C0 + D0 * D0) * ((u - t) * (u - t)) :=
    mul_nonneg (add_nonneg (mul_self_nonneg C0) (mul_self_nonneg D0)) (mul_self_nonneg _)
  linarith [key, t1]

/-- Claim C8: pointToLineDistance is total: on a degenerate segment whose
endpoints coincide it performs no division by zero and returns the distance
to the first endpoint; on a non-degenerate segment it returns the distance to
the point at the projection parameter clamped to [0, 1], which is the closest
point of the segment. -/
theorem c8_point_to_line_distance (x y x1 y1 x2 y2 : ℝ) :
    (x1 = x2 ∧ y1 = y2 →
      pointToLineDistance x y x1 y1 x2 y2 = distPts x y x1 y1)
    ∧ ((x2 - x1) * (x2 - x1) + (y2 - y1) * (y2 - y1) ≠ 0 →
        pointToLineDistance x y x1 y1 x2 y2
          = distPts x y
              (segPoint x1 y1 x2 y2 (clamp01 (projParam x y x1 y1 x2 y2))).x
              (segPoint x1 y1 x2 y2 (clamp01 (projParam x y x1 y1 x2 y2))).y
        ∧ ∀ u : ℝ, 0 ≤ u → u ≤ 1 →
            pointToLineDistance x y x1 y1 x2 y2
              ≤ distPts x y (segPoint x1 y1 x2 y2 u).x (segPoint x1 y1 x2 y2 u).y) := by
  constructor
  · rintro ⟨rfl, rfl⟩
    simp only [pointToLineDistance, distPts, sub_self, mul_zero, zero_mul, add_zero,
      ne_eq, not_true_eq_false, if_false]
    norm_num
  · intro hL
    have hLpos : 0 < (x2 - x1) * (x2 - x1) + (y2 - y1) * (y2 - y1) :=
      lt_of_le_of_ne (add_nonneg (mul_self_nonneg _) (mul_self_nonneg _)) (Ne.symm hL)
    have hfold : ((x - x1) * (x2 - x1) + (y - y1) * (y2 - y1))
          / ((x2 - x1) * (x2 - x1) + (y2 - y1) * (y2 - y1))
        = projParam x y x1 y1 x2 y2 := rfl
    have hmain : pointToLineDistance x y x1 y1 x2 y2
        = Real.sqrt
            ((x - (if projParam x y x1 y1 x2 y2 < 0 then x1
                else if projParam x y x1 y1 x2 y2 > 1 then x2
                else x1 + projParam x y x1 y1 x2 y2 * (x2 - x1)))
              * (x - (if projParam x y x1 y1 x2 y2 < 0 then x1
                else if projParam x y x1 y1 x2 y2 > 1 then x2
                else x1 + projParam x y x1 y1 x2 y2 * (x2 - x1)))
            + (y - (if projParam x y x1 y1 x2 y2 < 0 then y1
                else if projParam x y x1 y1 x2 y2 > 1 then y2
                else y1 + projParam x y x1 y1 x2 y2 * (y2 - y1)))
              * (y - (if projParam x y x1 y1 x2 y2 < 0 then y1
                else if projParam x y x1 y1 x2 y2 > 1 then y2
                else y1 + projParam x y x1 y1 x2 y2 * (y2 - y1)))) := by
      simp only [pointToLineDistance]
      rw [if_pos hL, hfold]
    have hprL : projParam x y x1 y1 x2 y2
          * ((x2 - x1) * (x2 - x1) + (y2 - y1) * (y2 - y1))
        = (x - x1) * (x2 - x1) + (y - y1) * (y2 - y1) := by
      rw [← hfold]
      field_simp
    rcases lt_or_le (projParam x y x1 y1 x2 y2) 0 with hneg | hge
    · have hclamp : clamp01 (projParam x y x1 y1 x2 y2) = 0 := by
        simp only [clamp01]
        rw [min_eq_right (le_trans hneg.le zero_le_one), max_eq_left hneg.le]
      have hdot : (x - x1) * (x2 - x1) + (y - y1) * (y2 - y1) ≤ 0 := by
        rw [← hprL]
        exact mul_nonpos_iff.mpr (Or.inr ⟨hneg.le, hLpos.le⟩)
      rw [hmain]
      simp only [if_pos hneg]
      rw [hclamp]
      constructor
      · simp only [segPoint, distPts, zero_mul, add_zero]
      · intro u hu0 hu1
        simp only [segPoint, distPts]
        apply Real.sqrt_le_sqrt
        have hmin := sqDist_min_neg (x - x1) (y - y1) (x2 - x1) (y2 - y1) u hu0 hdot
        calc (x - x1) * (x - x1) + (y - y1) * (y - y1)
            ≤ ((x - x1) - u * (x2 - x1)) * ((x - x1) - u * (x2 - x1))
              + ((y - y1) - u * (y2 - y1)) * ((y - y1) - u * (y2 - y1)) := hmin
          _ = (x - (x1 + u * (x2 - x1))) * (x - (x1 + u * (x2 - x1)))
              + (y - (y1 + u * (y2 - y1))) * (y - (y1 + u * (y2 - y1))) := by ring
    · rcases le_or_lt (projParam x y x1 y1 x2 y2) 1 with hle | hgt
      · have hclamp : clamp01 (projParam x y x1 y1 x2 y2)
            = projParam x y x1 y1 x2 y2 := by
          simp only [clamp01]
          rw [min_eq_right hle, max_eq_right hge]
        rw [hmain]
        simp only [if_neg (not_lt.mpr hge), if_neg (not_lt.mpr hle)]
        rw [hclamp]
        constructor
        · simp only [segPoint, distPts]
        · intro u hu0 hu1
          simp only [segPoint, distPts]
          apply Real.sqrt_le_sqrt
          have hmin := sqDist_min_mid (x - x1) (y - y1) (x2 - x1) (y2 - y1) u
            (projParam x y x1 y1 x2 y2) hprL
          calc (x - (x1 + projParam x y x1 y1 x2 y2 * (x2 - x1)))
                  * (x - (x1 + projParam x y x1 y1 x2 y2 * (x2 - x1)))
                + (y - (y1 + projParam x y x1 y1 x2 y2 * (y2 - y1)))
                  * (y - (y1 + projParam x y x1 y1 x2 y2 * (y2 - y1)))
              = ((x - x1) - projParam x y x1 y1 x2 y2 * (x2 - x1))
                  * ((x - x1) - projParam x y x1 y1 x2 y2 * (x2 - x1))
                + ((y - y1) - projParam x y x1 y1 x2 y2 * (y2 - y1))
                  * ((y - y1) - projParam x y x1 y1 x2 y2 * (y2 - y1)) := by ring
            _ ≤ ((x - x1) - u * (x2 - x1)) * ((x - x1) - u * (x2 - x1))
                + ((y - y1) - u * (y2 - y1)) * ((y - y1) - u * (y2 - y1)) := hmin
            _ = (x - (x1 + u * (x2 - x1))) * (x - (x1 + u * (x2 - x1)))
                + (y - (y1 + u * (y2 - y1))) * (y - (y1 + u * (y2 - y1))) := by ring
      · have hclamp : clamp01 (projParam x y x1 y1 x2 y2) = 1 := by
          simp only [clamp01]
          rw [min_eq_left hgt.le, max_eq_right zero_le_one]
        have hdot : (x2 - x1) * (x2 - x1) + (y2 - y1) * (y2 - y1)
            ≤ (x - x1) * (x2 - x1) + (y - y1) * (y2 - y1) := by
          rw [← hprL]
          nlinarith [mul_nonneg (le_of_lt (sub_pos.mpr hgt)) hLpos.le]
        rw [hmain]
        simp only [if_neg (not_lt.mpr hge), if_pos hgt]
        rw [hclamp]
        constructor
        · simp only [segPoint, distPts]
          congr 1
          ring
        · intro u hu0 hu1
          simp only [segPoint, distPts]
          apply Real.sqrt_le_sqrt
          have hmin := sqDist_min_pos (x - x1) (y - y1) (x2 - x1) (y2 - y1) u hu1 hdot
          calc (x - x2) * (x - x2) + (y - y2) * (y - y2)
              = ((x - x1) - (x2 - x1)) * ((x - x1) - (x2 - x1))
                + ((y - y1) - (y2 - y1)) * ((y - y1) - (y2 - y1)) := by ring
            _ ≤ ((x - x1) - u * (x2 - x1)) * ((x - x1) - u * (x2 - x1))
                + ((y - y1) - u * (y2 - y1)) * ((y - y1) - u * (y2 - y1)) := hmin
            _ = (x - (x1 + u * (x2 - x1))) * (x - (x1 + u * (x2 - x1)))
                + (y - (y1 + u * (y2 - y1))) * (y - (y1 + u * (y2 - y1))) := by ring

/-- Witness for claim C8: the degenerate segment (1,1)-(1,1) and the
non-degenerate segment (0,0)-(4,0) evaluated at the midpoint parameter. -/
theorem c8_witness :
    pointToLineDistance 3 4 1 1 1 1 = distPts 3 4 1 1
    ∧ pointToLineDistance 0 3 0 0 4 0
        ≤ distPts 0 3 (segPoint 0 0 4 0 (1 / 2)).x (segPoint 0 0 4 0 (1 / 2)).y := by
  constructor
  · exact (c8_point_to_line_distance 3 4 1 1 1 1).1 ⟨rfl, rfl⟩
  · exact ((c8_point_to_line_distance 0 3 0 0 4 0).2 (by norm_num)).2
      (1 / 2) (by norm_num) (by norm_num)

/-! ## Gesture state machine -/

/-- Hit-test tolerance: 15 on mobile, 8 on desktop
(src/unnamed/part_000 line 352). -/
noncomputable def tolerance (isMobile : Bool) : ℝ := if isMobile then 15 else 8

/-- JavaScript Math.atan2, via the complex argument. -/
noncomputable def atan2 (dy dx : ℝ) : ℝ := Complex.arg ⟨dx, dy⟩

/-- shouldSnapToAngle (src/unnamed/part_000 lines 305-310): true when the raw
angle is within 0.2 rad of a multiple of 45 degrees. -/
noncomputable def shouldSnapToAngle (dx dy : ℝ) : Bool :=
  let angle := atan2 dy dx
  let snapAngle := (round (angle / (Real.pi / 4)) : ℝ) * (Real.pi / 4)
  let actualAngle := atan2 dy dx
  decide (|actualAngle - snapAngle| < 0.2)

/-- handleShapeSelection: scan the scene in reverse z-order, select the first
hit and record the drag offset, otherwise clear the selection
(src/unnamed/part_000 lines 213-224; inlined in Canvas.tsx handleMouseDown). -/
noncomputable def handleShapeSelection (x y : ℝ) (s : CanvasState) : CanvasState :=
  match s.shapes.reverse.find? (fun sh => isInsideShape x y sh (tolerance s.isMobile)) with
  | some sh => { s with selectedShapeId := some sh.id, offset := ⟨x - sh.x, y - sh.y⟩ }
  | none => { s with selectedShapeId := none }

/-- Tool dispatch of pointer-down: select runs the hit test, pen starts a
stroke, any other tool creates a bare shape anchored at the down point.  The
shape id Date.now().toString() is modelled from the event timestamp. -/
noncomputable def downDispatch (tool : ShapeType) (x y : ℝ) (now : ℤ)
    (s : CanvasState) : CanvasState :=
  if tool = ShapeType.select then
    handleShapeSelection x y s
  else if tool = ShapeType.pen then
    { s with isDrawing := true, penPath := [⟨x, y⟩],
             currentShape := some { id := toString now, type := ShapeType.pen,
                                    x := x, y := y, path := some [⟨x, y⟩] } }
  else
    { s with isDrawing := true,
             currentShape := some { id := toString now, type := tool, x := x, y := y } }

/-- handlePointerDown (src/unnamed/part_000 lines 170-211): record the start
point, handle the mobile double-tap selection shortcut, then dispatch on the
active tool. -/
noncomputable def handlePointerDown (tool : ShapeType) (x y : ℝ) (now : ℤ)
    (isTouch : Bool) (s : CanvasState) : CanvasState :=
  let s0 := { s with startX := x, startY := y }
  if s0.isMobile = true ∧ isTouch = true then
    let tapLength := now - s0.lastTouchTime
    if tapLength < 500 ∧ 0 < tapLength then
      handleShapeSelection x y s0
    else
      downDispatch tool x y now { s0 with lastTouchTime := now }
  else
    downDispatch tool x y now s0

/-- handlePointerMove (src/unnamed/part_000 lines 226-303): drag the selected
shape in select mode, otherwise update the in-progress shape per the active
tool. -/
noncomputable def handlePointerMove (tool : ShapeType) (x y : ℝ)
    (s : CanvasState) : CanvasState :=
  if tool = ShapeType.select ∧ s.selectedShapeId.isSome = true ∧ s.isDrawing = false then
    { s with shapes := s.shapes.map fun sh =>
        if sh.id = s.selectedShapeId.getD "" then
          { sh with x := x - s.offset.x, y := y - s.offset.y }
        else sh }
  else
    match s.isDrawing, s.currentShape with
    | true, some cur =>
        match tool with
        | ShapeType.rectangle =>
            let width := x - s.startX
            let height := y - s.startY
            if s.isShiftPressed = true ∨ (s.isMobile = true ∧ |width - height| < 50) then
              let size := max |width| |height|
              { s with currentShape := some { cur with
                  width := some (if width < 0 then -size else size),
                  height := some (if height < 0 then -size else size) } }
            else
              { s with currentShape := some { cur with
                  width := some width, height := some height } }
        | ShapeType.circle =>
            let radius := Real.sqrt ((x - s.startX) * (x - s.startX)
              + (y - s.startY) * (y - s.startY))
            { s with currentShape := some { cur with radius := some radius } }
        | ShapeType.line =>
            if s.isShiftPressed = true
                ∨ (s.isMobile = true ∧ shouldSnapToAngle (x - s.startX) (y - s.startY) = true) then
              let dx := x - s.startX
              let dy := y - s.startY
              let angle := atan2 dy dx
              let snapAngle := (round (angle / (Real.pi / 4)) : ℝ) * (Real.pi / 4)
              let distance := Real.sqrt (dx * dx + dy * dy)
              { s with currentShape := some { cur with
                  x2 := some (s.startX + Real.cos snapAngle * distance),
                  y2 := some (s.startY + Real.sin snapAngle * distance) } }
            else
              { s with currentShape := some { cur with x2 := some x, y2 := some y } }
        | ShapeType.arrow =>
            { s with currentShape := some { cur with x2 := some x, y2 := some y } }
        | ShapeType.pen =>
            let newPath := s.penPath ++ [⟨x, y⟩]
            { s with penPath := newPath,
                     currentShape := some { cur with path := some newPath } }
        | _ => { s with currentShape := some cur }
    | _, _ => s

/-- handlePointerUp (src/unnamed/part_000 lines 312-327): commit the finished
shape, or commit the moved scene in select mode; always clear the selection. -/
def handlePointerUp (tool : ShapeType) (s : CanvasState) : CanvasState :=
  let s1 :=
    match s.isDrawing, s.currentShape with
    | true, some cur =>
        let newShapes := s.shapes ++ [cur]
        let s2 := saveToHistory newShapes { s with shapes := newShapes }
        { s2 with currentShape := none, isDrawing := false, penPath := [] }
    | _, _ =>
        if tool = ShapeType.select ∧ s.selectedShapeId.isSome = true then
          saveToHistory s.shapes s
        else s
  { s1 with selectedShapeId := none }

/-- onMouseLeave / onTouchCancel (Canvas.tsx lines 473-478,
src/unnamed/part_000 lines 559-572): forward to pointer-up, but only while
isDrawing is set. -/
def handleMouseLeave (tool : ShapeType) (s : CanvasState) : CanvasState :=
  if s.isDrawing = true then handlePointerUp tool s else s

/-- Delete/Backspace handler (Canvas.tsx lines 80-87): remove the selected
shape, commit, clear the selection. -/
def deleteSelected (s : CanvasState) : CanvasState :=
  match s.selectedShapeId with
  | some selId =>
      let newShapes := s.shapes.filter fun sh => sh.id != selId
      let s1 := saveToHistory newShapes { s with shapes := newShapes }
      { s1 with selectedShapeId := none }
  | none => s

/-- External events driving the component: pointer events carry the active
tool (a prop of the component) and the down event carries the Date.now()
timestamp and whether it is a touch event. -/
inductive Ev where
  | down (tool : ShapeType) (x y : ℝ) (now : ℤ) (isTouch : Bool)
  | move (tool : ShapeType) (x y : ℝ)
  | up (tool : ShapeType)
  | leave (tool : ShapeType)
  | keyUndo
  | keyRedo
  | keyDelete
  | shiftDown
  | shiftUp

/-- One event step of the component. -/
noncomputable def step (s : CanvasState) : Ev → CanvasState
  | Ev.down tool x y now isTouch => handlePointerDown tool x y now isTouch s
  | Ev.move tool x y => handlePointerMove tool x y s
  | Ev.up tool => handlePointerUp tool s
  | Ev.leave tool => handleMouseLeave tool s
  | Ev.keyUndo => undo s
  | Ev.keyRedo => redo s
  | Ev.keyDelete => deleteSelected s
  | Ev.shiftDown => { s with isShiftPressed := true }
  | Ev.shiftUp => { s with isShiftPressed := false }

/-- Run an event sequence from the initial component state. -/
noncomputable def run (evs : List Ev) : CanvasState := evs.foldl step init

theorem getD_map_lt {α β : Type} (f : α → β) (l : List α) (n : Nat) (d : α) (d2 : β)
    (h : n < l.length) : (l.map f).getD n d2 = f (l.getD n d) := by
  induction l generalizing n with
  | nil => cases h
  | cons a t ih =>
      cases n with
      | zero => rfl
      | succ m =>
          simp only [List.map_cons, List.getD_cons_succ]
          exact ih m (by simpa using h)

theorem getD_append_left {α : Type} (l1 l2 : List α) (n : Nat) (d : α)
    (h : n < l1.length) : (l1 ++ l2).getD n d = l1.getD n d := by
  induction l1 generalizing n with
  | nil => cases h
  | cons a t ih =>
      cases n with
      | zero => rfl
      | succ m =>
          simp only [List.cons_append, List.getD_cons_succ]
          exact ih m (by simpa using h)

theorem getD_append_at {α : Type} (l1 : List α) (a : α) (d : α) :
    (l1 ++ [a]).getD l1.length d = a := by
  induction l1 with
  | nil => rfl
  | cons b t ih => simpa using ih

theorem getD_take_lt {α : Type} (l : List α) (m n : Nat) (d : α) (h : n < m) :
    (l.take m).getD n d = l.getD n d := by
  induction l generalizing m n with
  | nil => simp
  | cons a t ih =>
      cases m with
      | zero => cases h
      | succ m2 =>
          cases n with
          | zero => rfl
          | succ k =>
              simp only [List.take_succ_cons, List.getD_cons_succ]
              exact ih m2 k (by omega)

/-- Behaviour of pointer-up when no drawing is in progress. -/
theorem handlePointerUp_not_drawing (tool : ShapeType) (s : CanvasState)
    (hdraw : s.isDrawing = false) :
    handlePointerUp tool s =
      { (if tool = ShapeType.select ∧ s.selectedShapeId.isSome = true
         then saveToHistory s.shapes s else s) with selectedShapeId := none } := by
  obtain ⟨shs, isd, sx, sy, cur, sel, off, shift, pp, hist, hidx, mob, ltt⟩ := s
  have hd : isd = false := hdraw
  subst hd
  cases cur <;> rfl

/-- Behaviour of pointer-up while drawing with a current shape. -/
theorem handlePointerUp_drawing (tool : ShapeType) (s : CanvasState) (cur : Shape)
    (hdraw : s.isDrawing = true) (hcur : s.currentShape = some cur) :
    handlePointerUp tool s =
      { saveToHistory (s.shapes ++ [cur]) { s with shapes := s.shapes ++ [cur] } with
          currentShape := none, isDrawing := false, penPath := [],
          selectedShapeId := none } := by
  obtain ⟨shs, isd, sx, sy, cur0, sel, off, shift, pp, hist, hidx, mob, ltt⟩ := s
  have hd : isd = true := hdraw
  subst hd
  have hc : cur0 = some cur := hcur
  subst hc
  rfl

/-- Claim C9: for every pointer-move processed while the select tool is
active, a shape is selected, and no drawing is in progress, the update changes
only the x and y fields of the shapes whose id equals the selected id (all
other fields are preserved by the record update), leaves every other shape
unchanged, and preserves the length and order of the scene. -/
theorem c9_drag_frame (s : CanvasState) (x y : ℝ) (selId : String)
    (hsel : s.selectedShapeId = some selId) (hdraw : s.isDrawing = false) :
    (handlePointerMove ShapeType.select x y s).shapes.length = s.shapes.length
    ∧ ∀ i, i < s.shapes.length →
        (((s.shapes.getD i default).id ≠ selId →
            (handlePointerMove ShapeType.select x y s).shapes.getD i default
              = s.shapes.getD i default)
          ∧ ((s.shapes.getD i default).id = selId →
            (handlePointerMove ShapeType.select x y s).shapes.getD i default
              = { s.shapes.getD i default with
                    x := x - s.offset.x, y := y - s.offset.y })) := by
  have hguard : ShapeType.select = ShapeType.select
      ∧ s.selectedShapeId.isSome = true ∧ s.isDrawing = false :=
    ⟨rfl, by rw [hsel]; rfl, hdraw⟩
  unfold handlePointerMove
  rw [if_pos hguard]
  simp only [hsel, Option.getD_some]
  constructor
  · simp
  · intro i hi
    rw [getD_map_lt _ _ i default default hi]
    constructor
    · intro hne
      rw [if_neg hne]
    · intro heq
      rw [if_pos heq]

/-- Witness state for claim C9: two shapes, the first selected. -/
def c9state : CanvasState :=
  { shapes := [{ id := "a", type := ShapeType.rectangle, x := 1, y := 2, width := some 3 },
               { id := "b", type := ShapeType.circle, x := 4, y := 5, radius := some 1 }],
    selectedShapeId := some "a", offset := ⟨1, 1⟩ }

/-- Witness for claim C9 at the concrete state c9state. -/
theorem c9_witness :
    c9state.selectedShapeId = some "a" ∧ c9state.isDrawing = false
    ∧ ((handlePointerMove ShapeType.select 10 20 c9state).shapes.length
          = c9state.shapes.length
        ∧ ∀ i, i < c9state.shapes.length →
            (((c9state.shapes.getD i default).id ≠ "a" →
                (handlePointerMove ShapeType.select 10 20 c9state).shapes.getD i default
                  = c9state.shapes.getD i default)
              ∧ ((c9state.shapes.getD i default).id = "a" →
                (handlePointerMove ShapeType.select 10 20 c9state).shapes.getD i default
                  = { c9state.shapes.getD i default with
                        x := 10 - c9state.offset.x, y := 20 - c9state.offset.y }))) :=
  ⟨rfl, rfl, c9_drag_frame c9state 10 20 "a" rfl rfl⟩

/-- Claim C10 (amended): a pointer-up in select mode with a selection commits
the current scene even without a pointer-move: the scene is unchanged, the
snapshot is appended after the truncated prefix, canUndo becomes true, and the
history length becomes index + 2 - which grows the history by one exactly when
the cursor was at the end; the new snapshot duplicates its predecessor when
the scene equals the currently shown snapshot. -/
theorem c10_select_up_commits (s : CanvasState) (selId : String)
    (hdraw : s.isDrawing = false) (hsel : s.selectedShapeId = some selId)
    (hidx : s.historyIndex < s.history.length) :
    (handlePointerUp ShapeType.select s).shapes = s.shapes
    ∧ (handlePointerUp ShapeType.select s).history.length = s.historyIndex + 2
    ∧ (handlePointerUp ShapeType.select s).historyIndex = s.historyIndex + 1
    ∧ (handlePointerUp ShapeType.select s).history.getD (s.historyIndex + 1) []
        = s.shapes
    ∧ canUndo (handlePointerUp ShapeType.select s) = true
    ∧ ((handlePointerUp ShapeType.select s).history.length = s.history.length + 1
        ↔ s.historyIndex + 1 = s.history.length)
    ∧ (s.history.getD s.historyIndex [] = s.shapes →
        (handlePointerUp ShapeType.select s).history.getD s.historyIndex []
          = (handlePointerUp ShapeType.select s).history.getD (s.historyIndex + 1) []) := by
  have hup : handlePointerUp ShapeType.select s
      = { saveToHistory s.shapes s with selectedShapeId := none } := by
    rw [handlePointerUp_not_drawing ShapeType.select s hdraw,
      if_pos ⟨rfl, by rw [hsel]; rfl⟩]
  have htklen : (s.history.take (s.historyIndex + 1)).length = s.historyIndex + 1 := by
    simp only [List.length_take]
    omega
  have hgetlast : (s.history.take (s.historyIndex + 1) ++ [s.shapes]).getD
      (s.historyIndex + 1) [] = s.shapes := by
    have h0 := getD_append_at (s.history.take (s.historyIndex + 1)) s.shapes ([] : Scene)
    rwa [htklen] at h0
  refine ⟨by rw [hup]; rfl, ?_, ?_, ?_, ?_, ?_, ?_⟩
  · rw [hup]
    simp only [saveToHistory, List.length_append, List.length_take,
      List.length_singleton]
    omega
  · rw [hup]
    simp only [saveToHistory, List.length_append, List.length_take,
      List.length_singleton]
    omega
  · rw [hup]
    exact hgetlast
  · rw [hup]
    simp only [canUndo, saveToHistory, List.length_append, List.length_take,
      List.length_singleton, decide_eq_true_eq]
    omega
  · rw [hup]
    simp only [saveToHistory, List.length_append, List.length_take,
      List.length_singleton]
    omega
  · intro hshown
    rw [hup]
    show (s.history.take (s.historyIndex + 1) ++ [s.shapes]).getD s.historyIndex []
        = (s.history.take (s.historyIndex + 1) ++ [s.shapes]).getD
            (s.historyIndex + 1) []
    rw [hgetlast, getD_append_left _ _ _ _ (by omega),
      getD_take_lt _ _ _ _ (Nat.lt_succ_self _), hshown]

/-- Witness shape for claim C10. -/
def c10wShape : Shape := { id := "w", type := ShapeType.rectangle, x := 0, y := 0 }

/-- Witness state for claim C10: cursor at the end of a two-entry history. -/
def c10wState : CanvasState :=
  { shapes := [c10wShape], history := [[], [c10wShape]], historyIndex := 1,
    selectedShapeId := some "w" }

/-- Witness for claim C10 at the concrete state c10wState. -/
theorem c10_witness :
    c10wState.isDrawing = false ∧ c10wState.selectedShapeId = some "w"
    ∧ c10wState.historyIndex < c10wState.history.length
    ∧ (handlePointerUp ShapeType.select c10wState).shapes = c10wState.shapes
    ∧ (handlePointerUp ShapeType.select c10wState).history.length
        = c10wState.historyIndex + 2
    ∧ canUndo (handlePointerUp ShapeType.select c10wState) = true := by
  have h := c10_select_up_commits c10wState "w" rfl rfl (by norm_num [c10wState])
  exact ⟨rfl, rfl, by norm_num [c10wState], h.1, h.2.1, h.2.2.2.2.1⟩

/-- Second shape of the counterexample history for claim C10. -/
def c10bShape : Shape := { id := "b", type := ShapeType.rectangle, x := 1, y := 1 }

/-- Counterexample state for claim C10: a redo entry exists (cursor 1 in a
three-entry history), so the commit truncates and the length does not grow. -/
def c10cexState : CanvasState :=
  { shapes := [c10wShape],
    history := [[], [c10wShape], [c10wShape, c10bShape]],
    historyIndex := 1, selectedShapeId := some "w", isDrawing := false }

/-- Counterexample to claim C10 as stated: a pointer-up in select mode with a
selection and a pending redo entry leaves the history length at 3; it does not
grow by one. -/
theorem c10_counterexample :
    c10cexState.isDrawing = false ∧ c10cexState.selectedShapeId = some "w"
    ∧ c10cexState.history.length = 3
    ∧ (handlePointerUp ShapeType.select c10cexState).history.length = 3 :=
  ⟨rfl, rfl, rfl, rfl⟩

/-- Claim C4 (amended): an abandoned pointer sequence (mouse leave / touch
cancel) behaves identically to pointer-up only while isDrawing is set: the
in-progress shape is appended and committed and the machine returns to idle;
in the Dragging state (select tool, selection held, isDrawing false) the
event is ignored. -/
theorem c4_leave_cancellation (tool : ShapeType) (s : CanvasState) (cur : Shape) :
    (s.isDrawing = true → s.currentShape = some cur →
      ((handleMouseLeave tool s).shapes = s.shapes ++ [cur]
        ∧ (handleMouseLeave tool s).history
            = s.history.take (s.historyIndex + 1) ++ [s.shapes ++ [cur]]
        ∧ (handleMouseLeave tool s).isDrawing = false
        ∧ (handleMouseLeave tool s).currentShape = none
        ∧ (handleMouseLeave tool s).penPath = []
        ∧ (handleMouseLeave tool s).selectedShapeId = none))
    ∧ (s.isDrawing = false → handleMouseLeave tool s = s) := by
  constructor
  · intro hdraw hcur
    have hlv : handleMouseLeave tool s = handlePointerUp tool s := by
      unfold handleMouseLeave
      rw [if_pos hdraw]
    rw [hlv, handlePointerUp_drawing tool s cur hdraw hcur]
    exact ⟨rfl, rfl, rfl, rfl, rfl, rfl⟩
  · intro hdraw
    unfold handleMouseLeave
    rw [if_neg (by simp [hdraw])]

/-- Witness drawing state for claim C4. -/
def c4drawShape : Shape :=
  { id := "n", type := ShapeType.line, x := 0, y := 0, x2 := some 5, y2 := some 5 }

/-- Witness state for claim C4: a line shape is being drawn. -/
def c4drawState : CanvasState :=
  { shapes := [], isDrawing := true, currentShape := some c4drawShape }

/-- Witness for claim C4: in the Drawing state the leave event commits; in the
initial state (isDrawing false) it is the identity. -/
theorem c4_witness :
    (c4drawState.isDrawing = true ∧ c4drawState.currentShape = some c4drawShape
      ∧ (handleMouseLeave ShapeType.line c4drawState).shapes
          = c4drawState.shapes ++ [c4drawShape]
      ∧ (handleMouseLeave ShapeType.line c4drawState).isDrawing = false)
    ∧ (init.isDrawing = false ∧ handleMouseLeave ShapeType.line init = init) := by
  have h1 := (c4_leave_cancellation ShapeType.line c4drawState c4drawShape).1 rfl rfl
  have h2 := (c4_leave_cancellation ShapeType.line init c4drawShape).2 rfl
  exact ⟨⟨rfl, rfl, h1.1, h1.2.2.1⟩, ⟨rfl, h2⟩⟩

/-- Counterexample dragging state for claim C4: select tool, a selected shape,
no drawing in progress. -/
def c4dragState : CanvasState :=
  { shapes := [{ id := "d", type := ShapeType.rectangle, x := 3, y := 3,
                 width := some 2, height := some 2 }],
    history := [[]], historyIndex := 0,
    selectedShapeId := some "d", isDrawing := false, offset := ⟨1, 1⟩ }

/-- Counterexample to claim C4 as stated: in the Dragging state the leave
event is a no-op (nothing is committed, the machine stays in Dragging), while
a pointer-up in the same state would commit and return to idle. -/
theorem c4_counterexample :
    c4dragState.isDrawing = false ∧ c4dragState.selectedShapeId = some "d"
    ∧ handleMouseLeave ShapeType.select c4dragState = c4dragState
    ∧ (handleMouseLeave ShapeType.select c4dragState).history.length = 1
    ∧ (handleMouseLeave ShapeType.select c4dragState).selectedShapeId = some "d"
    ∧ (handlePointerUp ShapeType.select c4dragState).history.length = 2
    ∧ (handlePointerUp ShapeType.select c4dragState).selectedShapeId = none :=
  ⟨rfl, rfl, rfl, rfl, rfl, rfl, rfl⟩

/-! ## Pen anchor invariant (claim C5) -/

/-- The pen invariant of the spec: for a pen shape the first path element
equals the anchor. -/
def penOK (sh : Shape) : Prop :=
  sh.type = ShapeType.pen → (sh.path.getD []).head? = some ⟨sh.x, sh.y⟩

/-- All shapes of a scene satisfy the pen invariant. -/
def sceneOK (sc : Scene) : Prop := ∀ sh, sh ∈ sc → penOK sh

/-- State invariant: committed scene, in-progress shape and all history
snapshots satisfy the pen invariant, and for an in-progress pen shape the
penPath buffer starts at its anchor. -/
def stateOK (s : CanvasState) : Prop :=
  sceneOK s.shapes
  ∧ (∀ c, s.currentShape = some c →
      penOK c ∧ (c.type = ShapeType.pen → s.penPath.head? = some ⟨c.x, c.y⟩))
  ∧ (∀ sc, sc ∈ s.history → sceneOK sc)

theorem sceneOK_nil : sceneOK [] := by
  intro sh hsh
  cases hsh

theorem sceneOK_single (sh : Shape) (h : penOK sh) : sceneOK [sh] := by
  intro sh2 hsh2
  rcases List.mem_singleton.mp hsh2 with rfl
  exact h

theorem sceneOK_append (s1 s2 : Scene) (h1 : sceneOK s1) (h2 : sceneOK s2) :
    sceneOK (s1 ++ s2) := by
  intro sh hsh
  rcases List.mem_append.mp hsh with h | h
  · exact h1 sh h
  · exact h2 sh h

theorem getD_mem_or {α : Type} (l : List α) (n : Nat) (d : α) :
    l.getD n d ∈ l ∨ l.getD n d = d := by
  induction l generalizing n with
  | nil => right; simp
  | cons a t ih =>
      cases n with
      | zero => left; simp [List.getD_cons_zero]
      | succ m =>
          rcases ih m with h | h
          · left
            simp only [List.getD_cons_succ]
            exact List.mem_cons_of_mem _ h
          · right
            simpa using h

theorem sceneOK_getD (hist : List Scene) (n : Nat)
    (h : ∀ sc, sc ∈ hist → sceneOK sc) : sceneOK (hist.getD n []) := by
  rcases getD_mem_or hist n [] with hm | he
  · exact h _ hm
  · rw [he]
    exact sceneOK_nil

theorem stateOK_congr (a b : CanvasState) (h1 : a.shapes = b.shapes)
    (h2 : a.currentShape = b.currentShape) (h3 : a.penPath = b.penPath)
    (h4 : a.history = b.history) (hb : stateOK b) : stateOK a := by
  obtain ⟨g1, g2, g3⟩ := hb
  refine ⟨?_, ?_, ?_⟩
  · rw [h1]
    exact g1
  · intro c hc
    rw [h2] at hc
    have hg := g2 c hc
    refine ⟨hg.1, fun hp => ?_⟩
    rw [h3]
    exact hg.2 hp
  · intro sc hsc
    rw [h4] at hsc
    exact g3 sc hsc

theorem stateOK_save (sc : Scene) (s : CanvasState) (hs : stateOK s)
    (hsc : sceneOK sc) : stateOK (saveToHistory sc s) := by
  obtain ⟨h1, h2, h3⟩ := hs
  refine ⟨h1, h2, ?_⟩
  intro t ht
  simp only [saveToHistory] at ht
  rcases List.mem_append.mp ht with h | h
  · exact h3 t (List.take_subset _ _ h)
  · rcases List.mem_singleton.mp h with rfl
    exact hsc

theorem stateOK_undo (s : CanvasState) (hs : stateOK s) : stateOK (undo s) := by
  obtain ⟨h1, h2, h3⟩ := hs
  unfold undo
  split
  · exact ⟨sceneOK_getD _ _ h3, h2, h3⟩
  · exact ⟨h1, h2, h3⟩

theorem stateOK_redo (s : CanvasState) (hs : stateOK s) : stateOK (redo s) := by
  obtain ⟨h1, h2, h3⟩ := hs
  unfold redo
  split
  · exact ⟨sceneOK_getD _ _ h3, h2, h3⟩
  · exact ⟨h1, h2, h3⟩

theorem stateOK_delete (s : CanvasState) (hs : stateOK s) :
    stateOK (deleteSelected s) := by
  obtain ⟨h1, h2, h3⟩ := hs
  unfold deleteSelected
  cases hsel : s.selectedShapeId with
  | none => exact ⟨h1, h2, h3⟩
  | some selId =>
      have hf : sceneOK (s.shapes.filter fun sh => sh.id != selId) := by
        intro sh hsh
        exact h1 sh (List.mem_of_mem_filter hsh)
      refine ⟨hf, h2, ?_⟩
      intro t ht
      simp only [saveToHistory] at ht
      rcases List.mem_append.mp ht with h | h
      · exact h3 t (List.take_subset _ _ h)
      · rcases List.mem_singleton.mp h with rfl
        exact hf

theorem stateOK_selection (x y : ℝ) (s : CanvasState) (hs : stateOK s) :
    stateOK (handleShapeSelection x y s) := by
  unfold handleShapeSelection
  cases hf : s.shapes.reverse.find?
      (fun sh => isInsideShape x y sh (tolerance s.isMobile)) with
  | none => exact stateOK_congr _ s rfl rfl rfl rfl hs
  | some sh => exact stateOK_congr _ s rfl rfl rfl rfl hs

theorem stateOK_downDispatch (tool : ShapeType) (x y : ℝ) (now : ℤ)
    (s : CanvasState) (hs : stateOK s) : stateOK (downDispatch tool x y now s) := by
  obtain ⟨h1, h2, h3⟩ := hs
  unfold downDispatch
  split
  · exact stateOK_selection x y s ⟨h1, h2, h3⟩
  · split
    · refine ⟨h1, ?_, h3⟩
      intro c hc
      rw [Option.some_inj] at hc
      subst hc
      exact ⟨fun _ => rfl, fun _ => rfl⟩
    · next hnotsel hnotpen =>
        refine ⟨h1, ?_, h3⟩
        intro c hc
        rw [Option.some_inj] at hc
        subst hc
        exact ⟨fun hp => absurd hp hnotpen, fun hp => absurd hp hnotpen⟩

theorem stateOK_down (tool : ShapeType) (x y : ℝ) (now : ℤ) (isTouch : Bool)
    (s : CanvasState) (hs : stateOK s) :
    stateOK (handlePointerDown tool x y now isTouch s) := by
  have hs0 : stateOK { s with startX := x, startY := y } :=
    stateOK_congr _ s rfl rfl rfl rfl hs
  simp only [handlePointerDown]
  split
  · split
    · exact stateOK_selection _ _ _ hs0
    · exact stateOK_downDispatch _ _ _ _ _
        (stateOK_congr _ _ rfl rfl rfl rfl hs0)
  · exact stateOK_downDispatch _ _ _ _ _ hs0

theorem stateOK_move (tool : ShapeType) (x y : ℝ) (s : CanvasState)
    (hs : stateOK s) (htool : tool ≠ ShapeType.select) :
    stateOK (handlePointerMove tool x y s) := by
  obtain ⟨h1, h2, h3⟩ := hs
  unfold handlePointerMove
  rw [if_neg (fun hcon => htool hcon.1)]
  cases hd : s.isDrawing with
  | false => exact ⟨h1, h2, h3⟩
  | true =>
      cases hc : s.currentShape with
      | none => exact ⟨h1, h2, h3⟩
      | some cur =>
          have hcur := h2 cur hc
          cases tool with
          | select => exact absurd rfl htool
          | rectangle =>
              dsimp only
              split
              · refine ⟨h1, ?_, h3⟩
                intro c hcEq
                rw [Option.some_inj] at hcEq
                subst hcEq
                exact hcur
              · refine ⟨h1, ?_, h3⟩
                intro c hcEq
                rw [Option.some_inj] at hcEq
                subst hcEq
                exact hcur
          | circle =>
              dsimp only
              refine ⟨h1, ?_, h3⟩
              intro c hcEq
              rw [Option.some_inj] at hcEq
              subst hcEq
              exact hcur
          | line =>
              dsimp only
              split
              · refine ⟨h1, ?_, h3⟩
                intro c hcEq
                rw [Option.some_inj] at hcEq
                subst hcEq
                exact hcur
              · refine ⟨h1, ?_, h3⟩
                intro c hcEq
                rw [Option.some_inj] at hcEq
                subst hcEq
                exact hcur
          | arrow =>
              dsimp only
              refine ⟨h1, ?_, h3⟩
              intro c hcEq
              rw [Option.some_inj] at hcEq
              subst hcEq
              exact hcur
          | text =>
              dsimp only
              refine ⟨h1, ?_, h3⟩
              intro c hcEq
              rw [Option.some_inj] at hcEq
              subst hcEq
              exact hcur
          | pen =>
              dsimp only
              refine ⟨h1, ?_, h3⟩
              intro c hcEq
              rw [Option.some_inj] at hcEq
              subst hcEq
              have hh := hcur.2
              constructor
              · intro hp
                have hh2 := hh hp
                cases hppn : s.penPath with
                | nil =>
                    rw [hppn] at hh2
                    simp at hh2
                | cons p rest =>
                    rw [hppn] at hh2
                    simpa using hh2
              · intro hp
                have hh2 := hh hp
                cases hppn : s.penPath with
                | nil =>
                    rw [hppn] at hh2
                    simp at hh2
                | cons p rest =>
                    rw [hppn] at hh2
                    simpa using hh2

/-- Behaviour of pointer-up when there is no current shape. -/
theorem handlePointerUp_no_shape (tool : ShapeType) (s : CanvasState)
    (hcur : s.currentShape = none) :
    handlePointerUp tool s =
      { (if tool = ShapeType.select ∧ s.selectedShapeId.isSome = true
         then saveToHistory s.shapes s else s) with selectedShapeId := none } := by
  obtain ⟨shs, isd, sx, sy, cur0, sel, off, shift, pp, hist, hidx, mob, ltt⟩ := s
  have hc : cur0 = none := hcur
  subst hc
  cases isd <;> rfl

theorem stateOK_up (tool : ShapeType) (s : CanvasState) (hs : stateOK s) :
    stateOK (handlePointerUp tool s) := by
  obtain ⟨h1, h2, h3⟩ := hs
  cases hd : s.isDrawing with
  | true =>
      cases hc : s.currentShape with
      | some cur =>
          rw [handlePointerUp_drawing tool s cur hd hc]
          have hnew : sceneOK (s.shapes ++ [cur]) :=
            sceneOK_append _ _ h1 (sceneOK_single cur (h2 cur hc).1)
          refine ⟨hnew, ?_, ?_⟩
          · intro c hcc
            exact Option.noConfusion hcc
          · intro t ht
            simp only [saveToHistory] at ht
            rcases List.mem_append.mp ht with h | h
            · exact h3 t (List.take_subset _ _ h)
            · rcases List.mem_singleton.mp h with rfl
              exact hnew
      | none =>
          rw [handlePointerUp_no_shape tool s hc]
          split
          · refine ⟨h1, h2, ?_⟩
            intro t ht
            simp only [saveToHistory] at ht
            rcases List.mem_append.mp ht with h | h
            · exact h3 t (List.take_subset _ _ h)
            · rcases List.mem_singleton.mp h with rfl
              exact h1
          · exact ⟨h1, h2, h3⟩
  | false =>
      rw [handlePointerUp_not_drawing tool s hd]
      split
      · refine ⟨h1, h2, ?_⟩
        intro t ht
        simp only [saveToHistory] at ht
        rcases List.mem_append.mp ht with h | h
        · exact h3 t (List.take_subset _ _ h)
        · rcases List.mem_singleton.mp h with rfl
          exact h1
      · exact ⟨h1, h2, h3⟩

theorem stateOK_leave (tool : ShapeType) (s : CanvasState) (hs : stateOK s) :
    stateOK (handleMouseLeave tool s) := by
  unfold handleMouseLeave
  split
  · exact stateOK_up tool s hs
  · exact hs

/-- Recognise the drag-capable events: pointer-moves with the select tool. -/
def isSelectMove : Ev → Bool
  | Ev.move tool _ _ => decide (tool = ShapeType.select)
  | _ => false

theorem stateOK_init : stateOK init := by
  refine ⟨sceneOK_nil, ?_, ?_⟩
  · intro c hc
    exact Option.noConfusion hc
  · intro sc hsc
    rcases List.mem_singleton.mp hsc with rfl
    exact sceneOK_nil

theorem stepPreserves (s : CanvasState) (e : Ev) (hs : stateOK s)
    (he : isSelectMove e = false) : stateOK (step s e) := by
  cases e with
  | down tool x y now isTouch => exact stateOK_down tool x y now isTouch s hs
  | move tool x y =>
      have htool : tool ≠ ShapeType.select := by
        simpa [isSelectMove] using he
      exact stateOK_move tool x y s hs htool
  | up tool => exact stateOK_up tool s hs
  | leave tool => exact stateOK_leave tool s hs
  | keyUndo => exact stateOK_undo s hs
  | keyRedo => exact stateOK_redo s hs
  | keyDelete => exact stateOK_delete s hs
  | shiftDown => exact stateOK_congr _ s rfl rfl rfl rfl hs
  | shiftUp => exact stateOK_congr _ s rfl rfl rfl rfl hs

/-- Claim C5 (amended): after any event sequence containing no select-tool
pointer-move (no drag move), every pen shape of the committed scene has its
first path element equal to its anchor; a drag move updates the anchor
without updating the path and can break the equality. -/
theorem c5_pen_anchor (evs : List Ev)
    (h : ∀ e, e ∈ evs → isSelectMove e = false) :
    ∀ sh, sh ∈ (run evs).shapes → sh.type = ShapeType.pen →
      (sh.path.getD []).head? = some ⟨sh.x, sh.y⟩ := by
  have hso : stateOK (run evs) :=
    foldl_pres stateOK (fun e => isSelectMove e = false) step
      (fun s e hs hq => stepPreserves s e hs hq) evs init h stateOK_init
  intro sh hsh hp
  exact hso.1 sh hsh hp

/-- Witness event sequence for claim C5: draw a pen stroke. -/
def c5evs : List Ev :=
  [Ev.down ShapeType.pen 0 0 7 false, Ev.move ShapeType.pen 1 2,
   Ev.up ShapeType.pen]

/-- Witness for claim C5 on the concrete drag-free sequence c5evs. -/
theorem c5_witness :
    (∀ e, e ∈ c5evs → isSelectMove e = false)
    ∧ (∀ sh, sh ∈ (run c5evs).shapes → sh.type = ShapeType.pen →
        (sh.path.getD []).head? = some ⟨sh.x, sh.y⟩) := by
  have hmem : ∀ e, e ∈ c5evs → isSelectMove e = false := by
    intro e he
    simp only [c5evs, List.mem_cons, List.not_mem_nil, or_false] at he
    rcases he with rfl | rfl | rfl <;> rfl
  exact ⟨hmem, c5_pen_anchor c5evs hmem⟩

/-- Pen shape as created by the pen pointer-down of the counterexample run. -/
def c5pen1 : Shape :=
  { id := toString (7 : ℤ), type := ShapeType.pen, x := 0, y := 0,
    path := some [⟨0, 0⟩] }

/-- Pen shape after one drawing move of the counterexample run. -/
def c5pen2 : Shape :=
  { id := toString (7 : ℤ), type := ShapeType.pen, x := 0, y := 0,
    path := some [⟨0, 0⟩, ⟨1, 0⟩] }

/-- Pen shape after the drag move: the anchor moved, the path did not. -/
def c5penMoved : Shape :=
  { id := toString (7 : ℤ), type := ShapeType.pen, x := 5 - (0 - 0), y := 5 - (0 - 0),
    path := some [⟨0, 0⟩, ⟨1, 0⟩] }

/-- Counterexample event sequence for claim C5: draw a pen stroke, then
select it and drag it. -/
def c5cexEvs : List Ev :=
  [Ev.down ShapeType.pen 0 0 7 false,
   Ev.move ShapeType.pen 1 0,
   Ev.up ShapeType.pen,
   Ev.down ShapeType.select 0 0 9 false,
   Ev.move ShapeType.select 5 5,
   Ev.up ShapeType.select]

/-- State after the pen pointer-down of the counterexample run. -/
def c5s1 : CanvasState :=
  { shapes := [], isDrawing := true, startX := 0, startY := 0,
    currentShape := some c5pen1, penPath := [⟨0, 0⟩],
    history := [[]], historyIndex := 0 }

/-- State after the pen drawing move of the counterexample run. -/
def c5s2 : CanvasState :=
  { shapes := [], isDrawing := true, startX := 0, startY := 0,
    currentShape := some c5pen2, penPath := [⟨0, 0⟩, ⟨1, 0⟩],
    history := [[]], historyIndex := 0 }

/-- State after the pen pointer-up of the counterexample run. -/
def c5s3 : CanvasState :=
  { shapes := [c5pen2], isDrawing := false, startX := 0, startY := 0,
    currentShape := none, penPath := [],
    history := [[], [c5pen2]], historyIndex := 1 }

/-- State after the select pointer-down of the counterexample run. -/
def c5s4 : CanvasState :=
  { shapes := [c5pen2], isDrawing := false, startX := 0, startY := 0,
    currentShape := none, selectedShapeId := some (toString (7 : ℤ)),
    offset := ⟨0 - 0, 0 - 0⟩, penPath := [],
    history := [[], [c5pen2]], historyIndex := 1 }

/-- State after the drag move of the counterexample run. -/
def c5s5 : CanvasState :=
  { shapes := [c5penMoved], isDrawing := false, startX := 0, startY := 0,
    currentShape := none, selectedShapeId := some (toString (7 : ℤ)),
    offset := ⟨0 - 0, 0 - 0⟩, penPath := [],
    history := [[], [c5pen2]], historyIndex := 1 }

/-- State after the final select pointer-up of the counterexample run. -/
def c5s6 : CanvasState :=
  { shapes := [c5penMoved], isDrawing := false, startX := 0, startY := 0,
    currentShape := none, selectedShapeId := none,
    offset := ⟨0 - 0, 0 - 0⟩, penPath := [],
    history := [[], [c5pen2], [c5penMoved]], historyIndex := 2 }

theorem c5ptld : pointToLineDistance 0 0 0 0 1 0 = 0 := by
  simp only [pointToLineDistance]
  norm_num [Real.sqrt_zero]

theorem c5hit : isInsideShape 0 0 c5pen2 (tolerance false) = true := by
  have htol : tolerance false = 8 := rfl
  rw [htol]
  simp only [c5pen2, isInsideShape, List.tail_cons, List.zip_cons_cons,
    List.zip_nil_right, List.any_cons, List.any_nil, Bool.or_false,
    decide_eq_true_eq]
  rw [c5ptld]
  norm_num

theorem c5find : [c5pen2].find? (fun sh => isInsideShape 0 0 sh (tolerance false))
    = some c5pen2 :=
  List.find?_cons_of_pos _ c5hit

theorem c5step1 : step init (Ev.down ShapeType.pen 0 0 7 false) = c5s1 := rfl

theorem c5step2 : step c5s1 (Ev.move ShapeType.pen 1 0) = c5s2 := rfl

theorem c5step3 : step c5s2 (Ev.up ShapeType.pen) = c5s3 := rfl

theorem c5step4 : step c5s3 (Ev.down ShapeType.select 0 0 9 false) = c5s4 := by
  show handlePointerDown ShapeType.select 0 0 9 false c5s3 = c5s4
  simp only [handlePointerDown, c5s3]
  rw [if_neg (by simp)]
  simp only [downDispatch]
  rw [if_pos trivial]
  simp only [handleShapeSelection, List.reverse_cons, List.reverse_nil,
    List.nil_append]
  rw [c5find]
  simp only [c5s4, c5pen2]

theorem c5step5 : step c5s4 (Ev.move ShapeType.select 5 5) = c5s5 := by
  show handlePointerMove ShapeType.select 5 5 c5s4 = c5s5
  simp only [handlePointerMove, c5s4, c5pen2, c5s5, c5penMoved, List.map_cons,
    List.map_nil, Option.getD_some, Option.isSome_some]
  simp only [and_self, if_true]

theorem c5step6 : step c5s5 (Ev.up ShapeType.select) = c5s6 := rfl

theorem c5run : run c5cexEvs = c5s6 := by
  show List.foldl step init c5cexEvs = c5s6
  simp only [c5cexEvs, List.foldl_cons, List.foldl_nil]
  rw [c5step1, c5step2, c5step3, c5step4, c5step5, c5step6]

/-- Counterexample to claim C5 as stated: after drawing a pen stroke and then
dragging it (a legal sequence of creation, drawing moves, drag moves and
commits), the committed scene contains a pen shape whose anchor is (5, 5)
while the first element of its path is still (0, 0). -/
theorem c5_counterexample :
    ((run c5cexEvs).shapes.getD 0 default).type = ShapeType.pen
    ∧ ((((run c5cexEvs).shapes.getD 0 default).path.getD []).head? = some ⟨0, 0⟩)
    ∧ ((run c5cexEvs).shapes.getD 0 default).x = 5
    ∧ ((run c5cexEvs).shapes.getD 0 default).y = 5
    ∧ (run c5cexEvs).history.getD (run c5cexEvs).historyIndex []
        = (run c5cexEvs).shapes
    ∧ ¬ penOK ((run c5cexEvs).shapes.getD 0 default) := by
  rw [c5run]
  refine ⟨rfl, rfl, by norm_num [c5s6, c5penMoved], by norm_num [c5s6, c5penMoved],
    rfl, ?_⟩
  intro hbad
  have hcontr := hbad rfl
  simp only [c5s6, c5penMoved, List.getD_cons_zero, Option.getD_some,
    List.head?_cons, Option.some_inj, Pt.mk.injEq] at hcontr
  norm_num at hcontr

end CanvasApp
